import Mathlib

/-!
Shallow embedding of the three Topaz Video AI FFmpeg filter stages
(frame interpolation `vf_tvai_fi`, camera pose estimation `vf_tvai_cpe`,
parameter estimation `vf_tvai_pe`) and proofs about their frame-flow
control protocol.

Conventions of the embedding:
* C `float`/`double` arithmetic of the retiming calculator is modelled
  over the exact rationals `ℚ`.  The one division-by-zero edge case that
  matters (input frame rate 0 with an explicit target rate) yields
  `fpsFactor = 0` both in C (`1/(s*inf) == 0.0`) and under Lean's
  `x / 0 = 0` convention, so the model and the C code agree there too.
* AVERROR codes are plain `Int` values (negated errno / FFERRTAG).
* Frames are identified by natural numbers; `av_frame_free`,
  `ff_filter_frame`, the tvai collaborator calls and the end-of-stream
  return are recorded as events in a trace, so ownership and ordering
  claims become statements about traces.
-/

namespace TVAI

/-- `AVERROR_EOF = FFERRTAG('E','O','F',' ')`. -/
def AVERROR_EOF : Int := -541478725

/-- `AVERROR(EINVAL)` (errno 22, negated by the `AVERROR` macro). -/
def AVERROR_EINVAL : Int := -22

/-- `AVERROR(ENOSYS)` (errno 38, negated by the `AVERROR` macro). -/
def AVERROR_ENOSYS : Int := -38

/-- A decoded video frame, identified by a number. -/
abbrev Frame := Nat

/-- `AVRational`: a numerator/denominator pair, as used for the `fps`
option and the link frame rates. -/
structure AVRational where
  num : Int
  den : Int
deriving DecidableEq, Repr

/-- `av_q2d`: rational to floating value, modelled as exact division in
`ℚ` (with `x / 0 = 0` standing in for the C infinity; see the header
note for why this agrees with the code on every path used below). -/
def av_q2d (a : AVRational) : ℚ := (a.num : ℚ) / (a.den : ℚ)

/-- Observable events of one filter stage, in program order. -/
inductive Event where
  /-- `ff_tvai_process(handle, frame, 0)` was called on this frame. -/
  | submit (f : Frame)
  /-- `av_frame_free` released this frame. -/
  | frameFreed (f : Frame)
  /-- `ff_filter_frame(outlink, frame)` pushed this frame downstream. -/
  | forwarded (f : Frame)
  /-- `ff_tvai_add_output(handle, outlink, frame, 0)` was called with
  this frame as the reference. -/
  | addOutput (f : Frame)
  /-- `ff_tvai_ignore_output(handle)` was called. -/
  | ignoreOutput
  /-- `tvai_end_stream(handle)` was called. -/
  | endStream
  /-- `tvai_wait(ms)` slept for the given interval. -/
  | wait (ms : Nat)
  /-- `ff_tvai_postflight(outlink, handle, previousFrame)` was called
  with the retained previous frame (or null) as argument. -/
  | postflight (f : Option Frame)
  /-- `AVERROR_EOF` was returned downstream from `request_frame`. -/
  | eofOut
  /-- `tvai_destroy(handle)` was called; records how many outputs the
  collaborator still had pending at that moment. -/
  | destroyCalled (pending : Nat)
deriving DecidableEq, Repr

/-- Modelled from the spec: the opaque Processor Handle's observable
state.  `remaining` is the number of outputs still pending inside the
collaborator; `ended` records whether `end_stream` has been signalled.
The collaborator itself (`tvai_create`, `tvai_end_stream`,
`tvai_remaining_frames`, `ff_tvai_process`, `ff_tvai_ignore_output`)
lives outside `src/`, so it is given the simplest behaviour compatible
with the spec's contract in section 4.1. -/
structure ProcState where
  remaining : Nat
  ended : Bool
deriving DecidableEq, Repr

/-- Modelled from the spec: `end_stream(handle)` signals no further
submissions; the handle keeps producing buffered output. -/
def tvai_end_stream (p : ProcState) : ProcState := { p with ended := true }

/-- Modelled from the spec: `remaining(handle)` is the number of outputs
still pending. -/
def tvai_remaining_frames (p : ProcState) : Nat := p.remaining

/-- Modelled from the spec: `emit_or_ignore(handle)` advances the
collaborator's internal pipeline, consuming one pending output when one
exists. -/
def ff_tvai_ignore_output (p : ProcState) : ProcState :=
  { p with remaining := p.remaining - 1 }

/-- Modelled from the spec: a successful `process(handle, frame, 0)`
submission queues one more pending output inside the collaborator. -/
def tvai_process_ok (p : ProcState) : ProcState :=
  { p with remaining := p.remaining + 1 }

end TVAI

namespace TVAI.FI

/-- The private context of the frame-interpolation filter
(`TVAIFIContext`), restricted to the fields the frame-flow control
protocol reads: the slow-motion factor, the duplicate-removal
threshold, the configured `fps` option and the previous-frame slot. -/
structure TVAIFIContext where
  slowmo : ℚ
  rdt : ℚ
  frame_rate : AVRational
  previousFrame : Option Frame
deriving DecidableEq, Repr

/-- `init` of `vf_tvai_fi`: clears the previous-frame slot
(`tvai->previousFrame = NULL;`) and returns 0. -/
def init (slowmo rdt : ℚ) (frame_rate : AVRational) : TVAIFIContext :=
  { slowmo := slowmo, rdt := rdt, frame_rate := frame_rate, previousFrame := none }

/-- What `config_props` of `vf_tvai_fi` computes: the retiming schedule,
the parameter array handed to `ff_tvai_verifyAndCreate`, the output
link's frame rate, and the return code. -/
structure FIConfigResult where
  fpsFactor : ℚ
  threshold : ℚ
  outRate : ℚ
  createParams : List ℚ
  retCode : Int
deriving DecidableEq, Repr

/-- `config_props` of `vf_tvai_fi`.  `inRate` is `inlink->frame_rate`
as a rational value; `createOk` stands for whether the external
`ff_tvai_verifyAndCreate` returns a non-null handle (its decision is
outside this code).  Mirrors the source line by line:
if `frame_rate.num > 0` then `fpsFactor = 1/(slowmo * av_q2d(av_div_q(frame_rate, inlink->frame_rate)))`,
else `fpsFactor = 1/slowmo` and the output rate is the input rate;
`threshold = fpsFactor*0.3`; `params = {threshold, fpsFactor, slowmo, rdt}`;
the output frame rate is the configured rate when `num > 0`, the input
rate otherwise; the return code is `AVERROR(EINVAL)` exactly when the
created handle is null. -/
def config_props (slowmo rdt : ℚ) (frame_rate : AVRational) (inRate : ℚ)
    (createOk : Bool) : FIConfigResult :=
  let fpsFactor : ℚ :=
    if 0 < frame_rate.num then
      1 / (slowmo * (av_q2d frame_rate / inRate))
    else
      1 / slowmo
  let threshold : ℚ := fpsFactor * (3 / 10)
  { fpsFactor := fpsFactor
    threshold := threshold
    outRate := if 0 < frame_rate.num then av_q2d frame_rate else inRate
    createParams := [threshold, fpsFactor, slowmo, rdt]
    retCode := if createOk then 0 else AVERROR_EINVAL }

/-- The `slowmo` option is declared in `tvai_fi_options` with range
`0.1 .. 16`; the host option system rejects any value outside that
range at option-setting time. -/
def slowmoAccepted (s : ℚ) : Prop := 1 / 10 ≤ s ∧ s ≤ 16

instance (s : ℚ) : Decidable (slowmoAccepted s) := by
  unfold slowmoAccepted; infer_instance

/-- `filter_frame` of `vf_tvai_fi`.  `processOk` stands for the result
of the external `ff_tvai_process` and `addRet` for the value returned
by the external `ff_tvai_add_output`.  On submission failure the frame
is freed and `AVERROR(ENOSYS)` is returned with the context untouched;
on success any previously retained frame is freed, the new frame is
stored in `previousFrame`, and `ff_tvai_add_output` is invoked with the
new frame as reference. -/
def filter_frame (tvai : TVAIFIContext) (f : Frame) (processOk : Bool)
    (addRet : Int) : List Event × TVAIFIContext × Int :=
  if processOk then
    (Event.submit f ::
       (tvai.previousFrame.elim [] fun g => [Event.frameFreed g]) ++
       [Event.addOutput f],
     { tvai with previousFrame := some f }, addRet)
  else
    ([Event.submit f, Event.frameFreed f], tvai, AVERROR_ENOSYS)

/-- `request_frame` of `vf_tvai_fi`.  `upstreamRet` is the value of
`ff_request_frame(ctx->inputs[0])` and `postRet` the result of the
external `ff_tvai_postflight`.  At upstream end-of-stream, exactly one
`postflight` call is made with the retained previous frame; a nonzero
postflight result is returned instead of `AVERROR_EOF`. -/
def request_frame (tvai : TVAIFIContext) (upstreamRet postRet : Int) :
    List Event × Int :=
  if upstreamRet = AVERROR_EOF then
    if postRet = 0 then
      ([Event.postflight tvai.previousFrame, Event.eofOut], AVERROR_EOF)
    else
      ([Event.postflight tvai.previousFrame], postRet)
  else
    ([], upstreamRet)

/-- `uninit` of `vf_tvai_fi`: the `tvai_destroy` call is commented out
in the source, so teardown performs no collaborator call at all. -/
def uninit : List Event := []

/-- A run of the interpolation stage's input side: process the frames
one after another through `filter_frame` (with the given per-frame
submission results, `ff_tvai_add_output` returning 0), accumulating the
trace. -/
def run (tvai : TVAIFIContext) : List (Frame × Bool) → List Event × TVAIFIContext
  | [] => ([], tvai)
  | (f, ok) :: rest =>
    let step := filter_frame tvai f ok 0
    let next := run step.2.1 rest
    (step.1 ++ next.1, next.2)

end TVAI.FI

namespace TVAI.CPE

/-- `filter_frame` of `vf_tvai_cpe`.  On a successful submission the
stage calls `ff_tvai_ignore_output` once and forwards the incoming
frame itself downstream unchanged (`ff_filter_frame(outlink, in)`,
whose result `fwdRet` it returns); on failure the frame is freed and
`AVERROR(ENOSYS)` is returned. -/
def filter_frame (p : ProcState) (f : Frame) (processOk : Bool)
    (fwdRet : Int) : List Event × ProcState × Int :=
  if processOk then
    ([Event.submit f, Event.ignoreOutput, Event.forwarded f],
     ff_tvai_ignore_output (tvai_process_ok p), fwdRet)
  else
    ([Event.submit f, Event.frameFreed f], p, AVERROR_ENOSYS)

/-- The drain loop of `vf_tvai_cpe`'s `request_frame`:
`while (tvai_remaining_frames(p) > 0) { ff_tvai_ignore_output(p); tvai_wait(20); }`. -/
def drainLoop (p : ProcState) : List Event × ProcState :=
  if h : 0 < tvai_remaining_frames p then
    let res := drainLoop (ff_tvai_ignore_output p)
    (Event.ignoreOutput :: Event.wait 20 :: res.1, res.2)
  else
    ([], p)
termination_by p.remaining
decreasing_by
  simp [tvai_remaining_frames] at h
  simp [ff_tvai_ignore_output]
  omega

/-- `request_frame` of `vf_tvai_cpe`.  When the upstream request
returns `AVERROR_EOF`, the stage calls `tvai_end_stream`, runs the
drain loop to zero remaining, and only then returns `AVERROR_EOF`
downstream; any other upstream result is passed through. -/
def request_frame (p : ProcState) (upstreamRet : Int) :
    List Event × ProcState × Int :=
  if upstreamRet = AVERROR_EOF then
    let d := drainLoop (tvai_end_stream p)
    (Event.endStream :: d.1 ++ [Event.eofOut], d.2, AVERROR_EOF)
  else
    ([], p, upstreamRet)

/-- `uninit` of `vf_tvai_cpe`: the `tvai_destroy` call is commented out
in the source, so teardown performs no collaborator call at all. -/
def uninit : List Event := []

/-- A run of the pose-estimation stage: submit every frame successfully
(`ff_filter_frame` returning 0), then receive `AVERROR_EOF` from the
upstream request. -/
def run (p : ProcState) : List Frame → List Event × ProcState × Int
  | [] => request_frame p AVERROR_EOF
  | f :: rest =>
    let step := filter_frame p f true 0
    let next := run step.2.1 rest
    (step.1 ++ next.1, next.2)

end TVAI.CPE

namespace TVAI.PE

/-- `init` of `vf_tvai_pe` returns `tvai->pParamEstimator == NULL`
(1 when the estimator handle is null, 0 otherwise); the handle is only
created later, in `config_props`. -/
def init (pParamEstimator : Option ProcState) : Int :=
  if pParamEstimator = none then 1 else 0

/-- `config_props` of `vf_tvai_pe`: creates the estimator handle via
the external `ff_tvai_verifyAndCreate` (`createOk` stands for its
success) and returns `AVERROR(EINVAL)` exactly when the handle is
null. -/
def config_props (createOk : Bool) : Option ProcState × Int :=
  if createOk then (some { remaining := 0, ended := false }, 0)
  else (none, AVERROR_EINVAL)

/-- `filter_frame` of `vf_tvai_pe`.  On a successful submission the
incoming frame itself is forwarded downstream unchanged; on failure the
frame is freed and `AVERROR(ENOSYS)` is returned.  Unlike the
pose-estimation stage, no `ff_tvai_ignore_output` call is made. -/
def filter_frame (p : ProcState) (f : Frame) (processOk : Bool)
    (fwdRet : Int) : List Event × ProcState × Int :=
  if processOk then
    ([Event.submit f, Event.forwarded f], tvai_process_ok p, fwdRet)
  else
    ([Event.submit f, Event.frameFreed f], p, AVERROR_ENOSYS)

/-- `request_frame` of `vf_tvai_pe`.  When the upstream request returns
`AVERROR_EOF`, the stage calls `tvai_end_stream` and immediately
returns `AVERROR_EOF` downstream: there is no drain loop in this
function.  (It is moreover not registered in `tvai_pe_outputs`.) -/
def request_frame (p : ProcState) (upstreamRet : Int) :
    List Event × ProcState × Int :=
  if upstreamRet = AVERROR_EOF then
    ([Event.endStream, Event.eofOut], tvai_end_stream p, AVERROR_EOF)
  else
    ([], p, upstreamRet)

/-- `uninit` of `vf_tvai_pe`: calls `tvai_destroy` unconditionally,
regardless of how many outputs are still pending. -/
def uninit (p : ProcState) : List Event :=
  [Event.destroyCalled (tvai_remaining_frames p)]

/-- A lifecycle of the parameter-estimation stage as assembled in
`ff_vf_tvai_pe` (whose output pad registers no `request_frame`
callback): submit every frame successfully, then tear down. -/
def lifecycle (p : ProcState) : List Frame → List Event
  | [] => uninit p
  | f :: rest => (filter_frame p f true 0).1 ++ lifecycle (filter_frame p f true 0).2.1 rest

end TVAI.PE

namespace TVAI

/-- Which callbacks an output pad registers. -/
structure OutputPad where
  hasConfigProps : Bool
  hasRequestFrame : Bool
deriving DecidableEq, Repr

/-- `tvai_fi_outputs`: registers both `config_props` and `request_frame`. -/
def tvai_fi_outputs : OutputPad := { hasConfigProps := true, hasRequestFrame := true }

/-- `tvai_cpe_outputs`: registers both `config_props` and `request_frame`. -/
def tvai_cpe_outputs : OutputPad := { hasConfigProps := true, hasRequestFrame := true }

/-- `tvai_pe_outputs`: registers only `config_props`; the
`request_frame` function defined in the same file is not wired in. -/
def tvai_pe_outputs : OutputPad := { hasConfigProps := true, hasRequestFrame := false }

/-- The frames pushed downstream in a trace, in order. -/
def forwardedOf (tr : List Event) : List Frame :=
  tr.filterMap fun e =>
    match e with
    | Event.forwarded f => some f
    | _ => none

/-- How often a trace frees the given frame. -/
def freedCount (tr : List Event) (f : Frame) : Nat :=
  tr.count (Event.frameFreed f)

/-- The trace of a drain loop that consumes `n` pending outputs. -/
def drainTrace : Nat → List Event
  | 0 => []
  | n + 1 => Event.ignoreOutput :: Event.wait 20 :: drainTrace n

/-- The submission trace of the pose-estimation stage for a list of
successfully processed frames. -/
def cpeSubTrace : List Frame → List Event
  | [] => []
  | f :: rest =>
    Event.submit f :: Event.ignoreOutput :: Event.forwarded f :: cpeSubTrace rest

/-- How many `tvai_destroy` calls a trace contains. -/
def destroyCount (tr : List Event) : Nat :=
  tr.countP fun e =>
    match e with
    | Event.destroyCalled _ => true
    | _ => false

end TVAI

namespace TVAI

lemma drainLoop_spec (p : ProcState) :
    CPE.drainLoop p = (drainTrace p.remaining, ⟨0, p.ended⟩) := by
  obtain ⟨n, e⟩ := p
  induction n with
  | zero =>
    rw [CPE.drainLoop]
    simp [tvai_remaining_frames, drainTrace]
  | succ n ih =>
    rw [CPE.drainLoop]
    simp only [tvai_remaining_frames, Nat.succ_pos, dif_pos, ff_tvai_ignore_output,
      Nat.add_sub_cancel]
    simp [ih, drainTrace]

lemma cpe_run_spec (frames : List Frame) (p : ProcState) :
    CPE.run p frames
      = (cpeSubTrace frames ++
           Event.endStream :: drainTrace p.remaining ++ [Event.eofOut],
         ⟨0, true⟩, AVERROR_EOF) := by
  induction frames generalizing p with
  | nil =>
    simp [CPE.run, CPE.request_frame, tvai_end_stream, cpeSubTrace, drainLoop_spec]
  | cons f rest ih =>
    simp [CPE.run, CPE.filter_frame, tvai_process_ok, ff_tvai_ignore_output,
      cpeSubTrace, ih]

lemma eofOut_not_mem_drainTrace (n : Nat) : Event.eofOut ∉ drainTrace n := by
  induction n with
  | zero => simp [drainTrace]
  | succ n ih => simp [drainTrace, ih]

lemma eofOut_not_mem_cpeSubTrace (frames : List Frame) :
    Event.eofOut ∉ cpeSubTrace frames := by
  induction frames with
  | nil => simp [cpeSubTrace]
  | cons f rest ih => simp [cpeSubTrace, ih]

lemma forwardedOf_drainTrace (n : Nat) : forwardedOf (drainTrace n) = [] := by
  induction n with
  | zero => simp [drainTrace, forwardedOf]
  | succ n ih => simp [drainTrace, forwardedOf] at ih ⊢; exact ih

lemma forwardedOf_cpeSubTrace (frames : List Frame) :
    forwardedOf (cpeSubTrace frames) = frames := by
  induction frames with
  | nil => simp [cpeSubTrace, forwardedOf]
  | cons f rest ih => simp [cpeSubTrace, forwardedOf] at ih ⊢; exact ih

lemma destroyCount_append (a b : List Event) :
    destroyCount (a ++ b) = destroyCount a + destroyCount b := by
  simp [destroyCount, List.countP_append]

lemma destroyCount_drainTrace (n : Nat) : destroyCount (drainTrace n) = 0 := by
  induction n with
  | zero => simp [drainTrace, destroyCount]
  | succ n ih => simp [drainTrace, destroyCount, List.countP_cons] at ih ⊢; exact ih

lemma destroyCount_cpeSubTrace (frames : List Frame) :
    destroyCount (cpeSubTrace frames) = 0 := by
  induction frames with
  | nil => simp [cpeSubTrace, destroyCount]
  | cons f rest ih =>
    simp [cpeSubTrace, destroyCount, List.countP_cons] at ih ⊢; exact ih

lemma destroyCount_fi_filter (c : FI.TVAIFIContext) (f : Frame) (ok : Bool)
    (r : Int) : destroyCount (FI.filter_frame c f ok r).1 = 0 := by
  cases ok <;> cases hc : c.previousFrame <;>
    simp [FI.filter_frame, destroyCount, List.countP_cons, hc]

lemma fi_run_destroyCount (inputs : List (Frame × Bool)) (c : FI.TVAIFIContext) :
    destroyCount (FI.run c inputs).1 = 0 := by
  induction inputs generalizing c with
  | nil => simp [FI.run, destroyCount]
  | cons q rest ih =>
    obtain ⟨f, ok⟩ := q
    simp [FI.run, destroyCount_append, destroyCount_fi_filter, ih]

lemma pe_lifecycle_destroyCount (frames : List Frame) (p : ProcState) :
    destroyCount (PE.lifecycle p frames) = 1 := by
  induction frames generalizing p with
  | nil => simp [PE.lifecycle, PE.uninit, destroyCount, List.countP_cons]
  | cons f rest ih =>
    have hstep : PE.lifecycle p (f :: rest)
        = [Event.submit f, Event.forwarded f] ++
            PE.lifecycle (tvai_process_ok p) rest := by
      simp [PE.lifecycle, PE.filter_frame]
    rw [hstep, destroyCount_append, ih]
    simp [destroyCount, List.countP_cons]

lemma fi_filter_frame_fail (c : FI.TVAIFIContext) (f : Frame) (r : Int) :
    FI.filter_frame c f false r
      = ([Event.submit f, Event.frameFreed f], c, AVERROR_ENOSYS) := rfl

lemma fi_filter_frame_ok_none (c : FI.TVAIFIContext) (f : Frame) (r : Int)
    (hc : c.previousFrame = none) :
    FI.filter_frame c f true r
      = ([Event.submit f, Event.addOutput f],
         { c with previousFrame := some f }, r) := by
  simp [FI.filter_frame, hc]

lemma fi_filter_frame_ok_some (c : FI.TVAIFIContext) (f g : Frame) (r : Int)
    (hc : c.previousFrame = some g) :
    FI.filter_frame c f true r
      = ([Event.submit f, Event.frameFreed g, Event.addOutput f],
         { c with previousFrame := some f }, r) := by
  simp [FI.filter_frame, hc]

lemma fi_run_nil (c : FI.TVAIFIContext) : FI.run c [] = ([], c) := rfl

lemma fi_run_cons (c : FI.TVAIFIContext) (f : Frame) (ok : Bool)
    (rest : List (Frame × Bool)) :
    FI.run c ((f, ok) :: rest)
      = ((FI.filter_frame c f ok 0).1 ++
           (FI.run (FI.filter_frame c f ok 0).2.1 rest).1,
         (FI.run (FI.filter_frame c f ok 0).2.1 rest).2) := rfl

lemma fi_run_prev_mem (inputs : List (Frame × Bool)) (c : FI.TVAIFIContext)
    {x : Frame} (h : (FI.run c inputs).2.previousFrame = some x) :
    c.previousFrame = some x ∨ x ∈ inputs.map Prod.fst := by
  induction inputs generalizing c with
  | nil =>
    rw [fi_run_nil] at h
    exact Or.inl h
  | cons q rest ih =>
    obtain ⟨f, ok⟩ := q
    rw [fi_run_cons] at h
    rcases ih _ h with hh | hh
    · cases ok
      · rw [fi_filter_frame_fail] at hh
        exact Or.inl hh
      · cases hc : c.previousFrame with
        | none =>
          rw [fi_filter_frame_ok_none c f 0 hc] at hh
          simp at hh
          simp [hh]
        | some g =>
          rw [fi_filter_frame_ok_some c f g 0 hc] at hh
          simp at hh
          simp [hh]
    · simp [hh]

lemma freedCount_append (a b : List Event) (f : Frame) :
    freedCount (a ++ b) f = freedCount a f + freedCount b f := by
  simp [freedCount, List.count_append]

lemma fi_run_freedCount (inputs : List (Frame × Bool)) (c : FI.TVAIFIContext)
    (h : (c.previousFrame.toList ++ inputs.map Prod.fst).Nodup) (f : Frame) :
    freedCount (FI.run c inputs).1 f =
      if (FI.run c inputs).2.previousFrame = some f then 0
      else if c.previousFrame = some f ∨ f ∈ inputs.map Prod.fst then 1
      else 0 := by
  induction inputs generalizing c with
  | nil =>
    rw [fi_run_nil]
    by_cases hc : c.previousFrame = some f <;> simp [freedCount, hc]
  | cons q rest ih =>
    obtain ⟨f₀, ok⟩ := q
    rw [fi_run_cons, freedCount_append]
    cases hc : c.previousFrame with
    | none =>
      have hnd : (f₀ :: rest.map Prod.fst).Nodup := by
        simpa [hc] using h
      have hf₀rest : f₀ ∉ rest.map Prod.fst := (List.nodup_cons.mp hnd).1
      cases ok
      · -- submission failure: frame freed once, context unchanged
        rw [fi_filter_frame_fail]
        have ihr := ih c (by simpa [hc] using hnd.of_cons)
        rw [ihr]
        by_cases hf : f = f₀
        · subst hf
          have hfin : (FI.run c rest).2.previousFrame ≠ some f := by
            intro hfin
            rcases fi_run_prev_mem rest c hfin with hm | hm
            · rw [hc] at hm; exact Option.noConfusion hm
            · exact hf₀rest hm
          simp [freedCount, hfin, hc, hf₀rest]
        · by_cases hfin : (FI.run c rest).2.previousFrame = some f <;>
            simp [freedCount, hfin, hc, hf, Ne.symm hf]
      · -- successful submission with empty slot: nothing freed here
        rw [fi_filter_frame_ok_none c f₀ 0 hc]
        have ihr := ih { c with previousFrame := some f₀ } (by simpa using hnd)
        rw [ihr]
        by_cases hfin :
            (FI.run { c with previousFrame := some f₀ } rest).2.previousFrame
              = some f
        · simp [freedCount, hfin]
        · by_cases hf : f = f₀
          · subst hf
            simp [freedCount, hfin, hc]
          · simp [freedCount, hfin, hc, hf, Ne.symm hf]
    | some g =>
      have hnd : (g :: f₀ :: rest.map Prod.fst).Nodup := by
        simpa [hc] using h
      have hgf₀ : g ≠ f₀ := by
        intro hgf
        exact (List.nodup_cons.mp hnd).1 (by simp [hgf])
      have hgrest : g ∉ rest.map Prod.fst := by
        intro hm
        exact (List.nodup_cons.mp hnd).1 (by simp [hm])
      have hnd₂ : (f₀ :: rest.map Prod.fst).Nodup := (List.nodup_cons.mp hnd).2
      have hf₀rest : f₀ ∉ rest.map Prod.fst := (List.nodup_cons.mp hnd₂).1
      cases ok
      · -- submission failure: frame freed once, context unchanged
        rw [fi_filter_frame_fail]
        have ihr := ih c (by
          simpa [hc] using List.Nodup.cons (fun hm => hgrest hm) hnd₂.of_cons)
        rw [ihr]
        by_cases hf : f = f₀
        · subst hf
          have hfin : (FI.run c rest).2.previousFrame ≠ some f := by
            intro hfin
            rcases fi_run_prev_mem rest c hfin with hm | hm
            · rw [hc] at hm
              exact hgf₀ (Option.some.inj hm)
            · exact hf₀rest hm
          simp [freedCount, hfin, hc, hf₀rest, hgf₀, Ne.symm hgf₀]
        · by_cases hfin : (FI.run c rest).2.previousFrame = some f <;>
            simp [freedCount, hfin, hc, hf, Ne.symm hf]
      · -- successful submission: the prior reference g is freed here
        rw [fi_filter_frame_ok_some c f₀ g 0 hc]
        have ihr := ih { c with previousFrame := some f₀ } (by simpa using hnd₂)
        rw [ihr]
        by_cases hf : f = g
        · subst hf
          have hfin :
              (FI.run { c with previousFrame := some f₀ } rest).2.previousFrame
                ≠ some f := by
            intro hfin
            rcases fi_run_prev_mem rest _ hfin with hm | hm
            · simp at hm
              exact hgf₀ hm.symm
            · exact hgrest hm
          simp [freedCount, hfin, hc, hgf₀, Ne.symm hgf₀, hgrest]
        · by_cases hfin :
              (FI.run { c with previousFrame := some f₀ } rest).2.previousFrame
                = some f
          · simp [freedCount, hfin, hf, Ne.symm hf]
          · by_cases hf₀ : f = f₀
            · subst hf₀
              simp [freedCount, hfin, hc, Ne.symm hf, hf]
            · simp [freedCount, hfin, hc, hf, hf₀, Ne.symm hf, Ne.symm hf₀]

lemma av_q2d_pos {fr : AVRational} (hn : 0 < fr.num) (hd : 0 < fr.den) :
    0 < av_q2d fr := by
  unfold av_q2d
  have h1 : (0:ℚ) < (fr.num : ℚ) := by exact_mod_cast hn
  have h2 : (0:ℚ) < (fr.den : ℚ) := by exact_mod_cast hd
  exact div_pos h1 h2

lemma config_props_fpsFactor_pos {s rdt rin : ℚ} {fr : AVRational} {ok : Bool}
    (hs : 0 < s) (hrin : 0 < rin) (hfr : 0 < fr.num → 0 < fr.den) :
    0 < (FI.config_props s rdt fr rin ok).fpsFactor := by
  unfold FI.config_props
  by_cases hn : 0 < fr.num
  · have ht : 0 < av_q2d fr := av_q2d_pos hn (hfr hn)
    simp only [hn, if_true]
    positivity
  · simp only [hn, if_false]
    positivity

end TVAI

namespace TVAI

/-- C1: at stream configuration of the frame-interpolation stage, for
every slow-motion factor `s > 0` and input rate `r_in > 0`: with no
explicit target rate (`frame_rate.num ≤ 0`), `fps_factor = 1/s` and the
output frame rate equals the input frame rate; with an explicit target
rate `r_out > 0`, `fps_factor = r_in / (s * r_out)` and the output
frame rate equals `r_out`. -/
theorem C1_fi_retiming_calculator (s rin rdt : ℚ) (fr : AVRational)
    (createOk : Bool) (hs : 0 < s) (hrin : 0 < rin) :
    (fr.num ≤ 0 →
      (FI.config_props s rdt fr rin createOk).fpsFactor = 1 / s ∧
      (FI.config_props s rdt fr rin createOk).outRate = rin) ∧
    (0 < fr.num → 0 < fr.den →
      (FI.config_props s rdt fr rin createOk).fpsFactor
        = rin / (s * av_q2d fr) ∧
      (FI.config_props s rdt fr rin createOk).outRate = av_q2d fr) := by
  constructor
  · intro hnum
    have hn : ¬ 0 < fr.num := not_lt.mpr hnum
    simp [FI.config_props, hn]
  · intro hn hd
    have ht : 0 < av_q2d fr := av_q2d_pos hn hd
    have hs0 : s ≠ 0 := ne_of_gt hs
    have ht0 : av_q2d fr ≠ 0 := ne_of_gt ht
    have hr0 : rin ≠ 0 := ne_of_gt hrin
    refine ⟨?_, by simp [FI.config_props, hn]⟩
    have : (FI.config_props s rdt fr rin createOk).fpsFactor
        = 1 / (s * (av_q2d fr / rin)) := by simp [FI.config_props, hn]
    rw [this]
    field_simp

/-- Witness for C1 at the two scenarios of the spec: `s = 2`, no target
rate, `r_in = 30` (so `fps_factor = 1/2`, output rate 30) and `s = 1`,
target rate 60/1, `r_in = 30` (so `fps_factor = 30/(1*60)`, output rate
60). -/
theorem C1_fi_retiming_calculator_witness :
    ((FI.config_props 2 (1/100) ⟨0, 1⟩ 30 true).fpsFactor = 1 / 2 ∧
     (FI.config_props 2 (1/100) ⟨0, 1⟩ 30 true).outRate = 30) ∧
    ((FI.config_props 1 (1/100) ⟨60, 1⟩ 30 true).fpsFactor
        = 30 / (1 * av_q2d ⟨60, 1⟩) ∧
     (FI.config_props 1 (1/100) ⟨60, 1⟩ 30 true).outRate = av_q2d ⟨60, 1⟩) :=
  ⟨(C1_fi_retiming_calculator 2 30 (1/100) ⟨0, 1⟩ true (by norm_num)
      (by norm_num)).1 (by norm_num),
   (C1_fi_retiming_calculator 1 30 (1/100) ⟨60, 1⟩ true (by norm_num)
      (by norm_num)).2 (by norm_num) (by norm_num)⟩

/-- C8: the detection threshold computed by the frame-interpolation
stage's configuration, and passed to `create` as the first parameter,
always equals `0.3 * fps_factor`; in particular `s = 2`, no target
rate, `r_in = 30` gives `fps_factor = 1/2` and `threshold = 0.15`. -/
theorem C8_fi_threshold :
    (∀ (s rdt rin : ℚ) (fr : AVRational) (ok : Bool),
      (FI.config_props s rdt fr rin ok).threshold
        = (3 / 10) * (FI.config_props s rdt fr rin ok).fpsFactor ∧
      (FI.config_props s rdt fr rin ok).createParams
        = [(FI.config_props s rdt fr rin ok).threshold,
           (FI.config_props s rdt fr rin ok).fpsFactor, s, rdt]) ∧
    (FI.config_props 2 (1/100) ⟨0, 1⟩ 30 true).fpsFactor = 1 / 2 ∧
    (FI.config_props 2 (1/100) ⟨0, 1⟩ 30 true).threshold = 3 / 20 := by
  refine ⟨fun s rdt rin fr ok => ⟨?_, ?_⟩, ?_, ?_⟩
  · simp [FI.config_props]; ring_nf
  · simp [FI.config_props]
  · norm_num [FI.config_props, av_q2d]
  · norm_num [FI.config_props, av_q2d]

/-- C7 counterexample: with a zero measured input frame rate, a valid
slow-motion factor `s = 1` and an explicit target rate of 60, the
configuration of the frame-interpolation stage is not rejected (return
code 0 when processor creation succeeds) and `fps_factor` comes out as
0, which is not positive: a zero `r_in` is not rejected at
configuration time. -/
theorem C7_fi_counterexample :
    (FI.config_props 1 (1/100) ⟨60, 1⟩ 0 true).retCode = 0 ∧
    (FI.config_props 1 (1/100) ⟨60, 1⟩ 0 true).fpsFactor = 0 := by
  constructor
  · norm_num [FI.config_props]
  · norm_num [FI.config_props, av_q2d]

/-- C7 as amended: a zero or negative slow-motion factor is rejected at
option-setting time by the declared option range `0.1 .. 16`, and for
every accepted `s` and positive input rate `fps_factor` is positive;
but the input rate itself is never validated: the configuration return
code depends only on whether processor creation succeeds, regardless of
`r_in`. -/
theorem C7_fi_config_validation :
    (∀ s : ℚ, FI.slowmoAccepted s → 0 < s) ∧
    (∀ (s rdt rin : ℚ) (fr : AVRational) (ok : Bool),
      FI.slowmoAccepted s → 0 < rin → (0 < fr.num → 0 < fr.den) →
      0 < (FI.config_props s rdt fr rin ok).fpsFactor) ∧
    (∀ (s rdt rin : ℚ) (fr : AVRational) (ok : Bool),
      ((FI.config_props s rdt fr rin ok).retCode = 0 ↔ ok = true)) := by
  refine ⟨?_, ?_, ?_⟩
  · intro s hs
    have h1 : (1:ℚ)/10 ≤ s := hs.1
    linarith
  · intro s rdt rin fr ok hs hrin hfr
    have hs0 : 0 < s := by have h1 : (1:ℚ)/10 ≤ s := hs.1; linarith
    exact config_props_fpsFactor_pos hs0 hrin hfr
  · intro s rdt rin fr ok
    cases ok <;> simp [FI.config_props, AVERROR_EINVAL]

/-- Witness for the amended C7: `s = 2` is an accepted slow-motion
factor, gives a positive `fps_factor` at `r_in = 30` with no target
rate, and the configuration succeeds exactly when creation does. -/
theorem C7_fi_config_validation_witness :
    (0:ℚ) < 2 ∧
    0 < (FI.config_props 2 (1/100) ⟨0, 1⟩ 30 true).fpsFactor ∧
    (FI.config_props 2 (1/100) ⟨0, 1⟩ 30 true).retCode = 0 :=
  ⟨C7_fi_config_validation.1 2 (by constructor <;> norm_num),
   C7_fi_config_validation.2.1 2 (1/100) 30 ⟨0, 1⟩ true
     (by constructor <;> norm_num) (by norm_num) (fun _ => by norm_num),
   (C7_fi_config_validation.2.2 2 (1/100) 30 ⟨0, 1⟩ true).mpr rfl⟩

/-- C2 counterexample: with one output still pending, the
parameter-estimation stage's `request_frame` at upstream end-of-stream
performs no `emit_or_ignore` poll and no wait, yet returns the
end-of-stream sentinel while `remaining` is still 1: there is no drain
loop in this stage. -/
theorem C2_pe_counterexample :
    (PE.request_frame ⟨1, false⟩ AVERROR_EOF).2.2 = AVERROR_EOF ∧
    tvai_remaining_frames (PE.request_frame ⟨1, false⟩ AVERROR_EOF).2.1 = 1 ∧
    Event.ignoreOutput ∉ (PE.request_frame ⟨1, false⟩ AVERROR_EOF).1 ∧
    (∀ ms : Nat, Event.wait ms ∉ (PE.request_frame ⟨1, false⟩ AVERROR_EOF).1) := by
  refine ⟨?_, ?_, ?_, ?_⟩ <;>
    simp [PE.request_frame, tvai_end_stream, tvai_remaining_frames]

/-- C2 as amended: when the upstream signals end-of-stream during a
frame request, the parameter-estimation stage's `request_frame` calls
`end_stream` and then immediately propagates the end-of-stream sentinel
downstream, without any drain loop; moreover this `request_frame` is
not registered on the stage's output pad, so it is not even invoked in
the assembled filter. -/
theorem C2_pe_no_drain_loop :
    (∀ p : ProcState,
      PE.request_frame p AVERROR_EOF
        = ([Event.endStream, Event.eofOut], tvai_end_stream p, AVERROR_EOF)) ∧
    tvai_pe_outputs.hasRequestFrame = false := by
  constructor
  · intro p
    simp [PE.request_frame]
  · rfl

/-- C4: in all three stages, when `ff_tvai_process` rejects a frame the
frame is freed exactly once, nothing is forwarded downstream, the
generic processing-failed error `AVERROR(ENOSYS)` is returned for that
call only, and the stage's context is left exactly as it was, so the
stream stays usable for subsequent frames. -/
theorem C4_submission_failure :
    (∀ (tvai : FI.TVAIFIContext) (f : Frame) (r : Int),
      FI.filter_frame tvai f false r
        = ([Event.submit f, Event.frameFreed f], tvai, AVERROR_ENOSYS) ∧
      freedCount (FI.filter_frame tvai f false r).1 f = 1 ∧
      forwardedOf (FI.filter_frame tvai f false r).1 = []) ∧
    (∀ (p : ProcState) (f : Frame) (r : Int),
      CPE.filter_frame p f false r
        = ([Event.submit f, Event.frameFreed f], p, AVERROR_ENOSYS) ∧
      freedCount (CPE.filter_frame p f false r).1 f = 1 ∧
      forwardedOf (CPE.filter_frame p f false r).1 = []) ∧
    (∀ (p : ProcState) (f : Frame) (r : Int),
      PE.filter_frame p f false r
        = ([Event.submit f, Event.frameFreed f], p, AVERROR_ENOSYS) ∧
      freedCount (PE.filter_frame p f false r).1 f = 1 ∧
      forwardedOf (PE.filter_frame p f false r).1 = []) := by
  refine ⟨fun tvai f r => ⟨?_, ?_, ?_⟩, fun p f r => ⟨?_, ?_, ?_⟩,
    fun p f r => ⟨?_, ?_, ?_⟩⟩ <;>
    simp [FI.filter_frame, CPE.filter_frame, PE.filter_frame, freedCount,
      forwardedOf, List.count_cons]

/-- C6: at upstream end-of-stream the frame-interpolation stage drains
through exactly one `postflight` call whose argument is the retained
previous-frame reference; a failing `postflight` result is returned
instead of the end-of-stream sentinel, a successful one lets the
sentinel through. -/
theorem C6_fi_postflight (tvai : FI.TVAIFIContext) (postRet : Int) :
    (FI.request_frame tvai AVERROR_EOF postRet).1.count
        (Event.postflight tvai.previousFrame) = 1 ∧
    (postRet = 0 →
      FI.request_frame tvai AVERROR_EOF postRet
        = ([Event.postflight tvai.previousFrame, Event.eofOut], AVERROR_EOF)) ∧
    (postRet ≠ 0 →
      FI.request_frame tvai AVERROR_EOF postRet
        = ([Event.postflight tvai.previousFrame], postRet)) := by
  by_cases hp : postRet = 0 <;>
    simp [FI.request_frame, hp, List.count_cons]

/-- Witness for C6 at a concrete context (previous frame 3 retained)
with a succeeding and a failing postflight. -/
theorem C6_fi_postflight_witness :
    (FI.request_frame ⟨2, 1/100, ⟨0, 1⟩, some 3⟩ AVERROR_EOF 0
        = ([Event.postflight (some 3), Event.eofOut], AVERROR_EOF)) ∧
    (FI.request_frame ⟨2, 1/100, ⟨0, 1⟩, some 3⟩ AVERROR_EOF (-5)
        = ([Event.postflight (some 3)], -5)) :=
  ⟨(C6_fi_postflight ⟨2, 1/100, ⟨0, 1⟩, some 3⟩ 0).2.1 rfl,
   (C6_fi_postflight ⟨2, 1/100, ⟨0, 1⟩, some 3⟩ (-5)).2.2 (by norm_num)⟩

/-- C10: the parameter-estimation stage's `init` returns a nonzero
(failure) code exactly when the estimator handle is null; the handle is
only created at output-link configuration, so `init` as invoked at
filter creation (handle still null) always reports failure. -/
theorem C10_pe_init_always_fails :
    (∀ est : Option ProcState, PE.init est ≠ 0 ↔ est = none) ∧
    PE.init none = 1 ∧
    (∀ ok : Bool, ((PE.config_props ok).1.isSome ↔ ok = true)) := by
  refine ⟨?_, by simp [PE.init], ?_⟩
  · intro est
    cases est <;> simp [PE.init]
  · intro ok
    cases ok <;> simp [PE.config_props]

/-- C3: on the pose-estimation stage, for every list of successfully
submitted frames and every collaborator state: each submitted frame is
forwarded downstream unchanged and in order; the end-of-stream request
returns the sentinel with zero outputs remaining; and the sentinel
appears exactly once, as the very last event, so it is never propagated
while `remaining > 0`. -/
theorem C3_cpe_drain_protocol (frames : List Frame) (p : ProcState) :
    forwardedOf (CPE.run p frames).1 = frames ∧
    (CPE.run p frames).2.2 = AVERROR_EOF ∧
    tvai_remaining_frames (CPE.run p frames).2.1 = 0 ∧
    ∃ tr, (CPE.run p frames).1 = tr ++ [Event.eofOut] ∧
      Event.eofOut ∉ tr := by
  refine ⟨?_, ?_, ?_, ?_⟩
  · have h1 := forwardedOf_cpeSubTrace frames
    have h2 := forwardedOf_drainTrace p.remaining
    unfold forwardedOf at h1 h2 ⊢
    rw [cpe_run_spec]
    simp [List.filterMap_append, h1, h2]
  · rw [cpe_run_spec]
  · rw [cpe_run_spec]
    rfl
  · refine ⟨cpeSubTrace frames ++ Event.endStream :: drainTrace p.remaining,
      ?_, ?_⟩
    · rw [cpe_run_spec]
    · simp [eofOut_not_mem_cpeSubTrace, eofOut_not_mem_drainTrace]

/-- C5: the frame-interpolation stage's previous-frame slot starts
empty at `init`; a successful submission frees exactly the prior
reference (when there is one) before `add_output` runs and then holds
exactly the new frame; and over any run from `init` with distinct
frames, every frame that entered the stage has been freed exactly once
except the one currently held, which is unfreed — so at most one
reference is live at every reachable state, with no leak and no double
free. -/
theorem C5_fi_previous_frame_reference :
    (∀ (s rdt : ℚ) (fr : AVRational), (FI.init s rdt fr).previousFrame = none) ∧
    (∀ (tvai : FI.TVAIFIContext) (f : Frame) (r : Int),
      (FI.filter_frame tvai f true r).2.1.previousFrame = some f ∧
      (FI.filter_frame tvai f true r).1
        = Event.submit f ::
            (tvai.previousFrame.elim [] fun g => [Event.frameFreed g]) ++
            [Event.addOutput f]) ∧
    (∀ (s rdt : ℚ) (fr : AVRational) (inputs : List (Frame × Bool)),
      (inputs.map Prod.fst).Nodup →
      ∀ f : Frame,
        freedCount (FI.run (FI.init s rdt fr) inputs).1 f =
          if (FI.run (FI.init s rdt fr) inputs).2.previousFrame = some f then 0
          else if f ∈ inputs.map Prod.fst then 1
          else 0) := by
  refine ⟨fun s rdt fr => rfl, fun tvai f r => ⟨?_, ?_⟩, ?_⟩
  · simp [FI.filter_frame]
  · simp [FI.filter_frame]
  · intro s rdt fr inputs hnd f
    have h := fi_run_freedCount inputs (FI.init s rdt fr) (by simpa [FI.init]) f
    simpa [FI.init] using h

/-- Witness for C5's run-level accounting: two distinct frames 3 and 5
submitted successfully; 3 (replaced) has been freed exactly once while
5 is still held. -/
theorem C5_fi_previous_frame_reference_witness :
    ([((3:Nat), true), ((5:Nat), true)].map Prod.fst).Nodup ∧
    (freedCount (FI.run (FI.init 1 1 ⟨0, 1⟩) [(3, true), (5, true)]).1 3 =
      if (FI.run (FI.init 1 1 ⟨0, 1⟩) [(3, true), (5, true)]).2.previousFrame
          = some 3 then 0
      else if 3 ∈ [((3:Nat), true), ((5:Nat), true)].map Prod.fst then 1
      else 0) :=
  ⟨by decide,
   C5_fi_previous_frame_reference.2.2 1 1 ⟨0, 1⟩ [(3, true), (5, true)]
     (by decide) 3⟩

/-- C9 counterexample: the parameter-estimation stage's teardown after
one successful submission calls `tvai_destroy` while one output is
still pending — destruction is not guarded by `remaining` having
reached zero (the stage never drains: its `request_frame` is not even
registered). -/
theorem C9_pe_counterexample :
    PE.lifecycle ⟨0, false⟩ [7]
      = [Event.submit 7, Event.forwarded 7, Event.destroyCalled 1] ∧
    Event.destroyCalled 0 ∉ PE.lifecycle ⟨0, false⟩ [7] := by
  constructor <;>
    simp [PE.lifecycle, PE.filter_frame, PE.uninit, tvai_process_ok,
      tvai_remaining_frames]

/-- C9 as amended: the pose-estimation and frame-interpolation stages
never call `tvai_destroy` — not in any run of submissions nor at
teardown (their `uninit` bodies are commented out); the
parameter-estimation stage calls `tvai_destroy` exactly once per
lifecycle, at teardown — but unconditionally, with whatever number of
outputs is still pending at that moment. -/
theorem C9_destroy_policy :
    (∀ (tvai : FI.TVAIFIContext) (inputs : List (Frame × Bool)),
      destroyCount ((FI.run tvai inputs).1 ++ FI.uninit) = 0) ∧
    (∀ (p : ProcState) (frames : List Frame),
      destroyCount ((CPE.run p frames).1 ++ CPE.uninit) = 0) ∧
    (∀ (p : ProcState) (frames : List Frame),
      destroyCount (PE.lifecycle p frames) = 1) ∧
    (∀ p : ProcState,
      PE.uninit p = [Event.destroyCalled (tvai_remaining_frames p)]) := by
  refine ⟨?_, ?_, ?_, fun p => rfl⟩
  · intro tvai inputs
    rw [destroyCount_append, fi_run_destroyCount]
    simp [FI.uninit, destroyCount]
  · intro p frames
    have h1 := destroyCount_cpeSubTrace frames
    have h2 := destroyCount_drainTrace p.remaining
    unfold destroyCount at h1 h2 ⊢
    rw [cpe_run_spec]
    simp [CPE.uninit, List.countP_append, List.countP_cons, h1, h2]
  · intro p frames
    exact pe_lifecycle_destroyCount frames p

end TVAI
